import Mathlib

/-!
Verification of the gophkeeper secrets-vault core against its specification.

Shallow embedding of the Go sources:
- `internal/cryptutils/cryptutils.go` : field cipher (AES-CFB + base64url),
  stream cipher (scrypt KDF + AES-CTR), CRC32C checksum tap;
- `internal/services/textsvc/textsvc.go` and
  `internal/services/filesvc/filesvc.go` : secret-service orchestration;
- the PostgreSQL retry wrapper (`pgutils`);
- `internal/storage/filerepo/inmemory.go` : in-memory metadata repository;
- `internal/domain/vault/bankcard` : bank-card data validation.

Bytes are modelled as `List Nat` with values below 256 where that matters.
External library primitives that the code calls (AES block encryption,
scrypt) are parameters of the embedding: the theorems hold for every
choice of these functions, which is exactly the property the spec claims
(the constructions only use that the primitives are deterministic
functions of key material).
-/

namespace Gophkeeper

/-- Byte strings (Go `[]byte` / `string`): lists of naturals, each below 256. -/
abbrev Bytes := List Nat

/-- Pointwise XOR of two byte strings, truncating to the shorter one
(Go `cipher.StreamReader` XORs exactly the bytes read). -/
def xorBytes (a b : Bytes) : Bytes := List.zipWith HXor.hXor a b

/-- Big-endian counter increment used by Go `crypto/cipher` CTR mode:
starting from the last byte, add one and propagate the carry while a byte
wraps to zero. -/
def incCounterRev : Bytes → Bytes
  | [] => []
  | b :: rest => if (b + 1) % 256 = 0 then 0 :: incCounterRev rest else ((b + 1) % 256) :: rest

/-- CTR counter increment on a big-endian counter block. -/
def incCounter (ctr : Bytes) : Bytes := (incCounterRev ctr.reverse).reverse

/-- Keystream of AES-CTR: `n` encrypted counter blocks, starting from `iv`
(`cipher.NewCTR(block, iv)`); `aesE key blk` is the AES block encryption
of the external `crypto/aes` cipher, a parameter of the embedding. -/
def ctrKeystream (aesE : Bytes → Bytes → Bytes) (key iv : Bytes) : Nat → Bytes
  | 0 => []
  | n + 1 => aesE key iv ++ ctrKeystream aesE key (incCounter iv) n

/-- Fully draining the encrypting reader returned by
`cryptutils.EncryptStream` (cryptutils.go lines 118 to 151): the key is
`scrypt.Key(passphrase, salt, 1<<15, 8, 1, 32)` (the salt is generated by
`generateAESKey` and returned alongside), and the produced bytes are the
source bytes XORed with the AES-CTR keystream for the random `iv`.
`scryptK` is the external `golang.org/x/crypto/scrypt` KDF, a parameter of
the embedding; salt and iv stand for the random bytes drawn inside the
function. -/
def encryptStreamDrain (scryptK : Bytes → Bytes → Nat → Nat → Nat → Nat → Bytes)
    (aesE : Bytes → Bytes → Bytes) (passphrase salt iv data : Bytes) : Bytes :=
  let key := scryptK passphrase salt 32768 8 1 32
  xorBytes data (ctrKeystream aesE key iv ((data.length + 15) / 16))

/-- Fully draining the decrypting reader returned by
`cryptutils.DecryptStream` (cryptutils.go lines 158 to 184): the key is
re-derived as `scrypt.Key(passphrase, salt, 1<<15, 8, 1, 32)` from the
caller-supplied salt, and the bytes read are XORed with the AES-CTR
keystream for the caller-supplied `iv`. -/
def decryptStreamDrain (scryptK : Bytes → Bytes → Nat → Nat → Nat → Nat → Bytes)
    (aesE : Bytes → Bytes → Bytes) (passphrase salt iv data : Bytes) : Bytes :=
  let key := scryptK passphrase salt 32768 8 1 32
  xorBytes data (ctrKeystream aesE key iv ((data.length + 15) / 16))

/-! ## CRC32 (Castagnoli), `hash/crc32` with `crc32.MakeTable(crc32.Castagnoli)` -/

/-- The bit-reversed Castagnoli polynomial used by `crc32.Castagnoli`. -/
def crcPoly : Nat := 0x82F63B78

/-- One bit step of the LSB-first CRC32 computation. -/
def crcBit (crc : Nat) : Nat := if crc % 2 = 1 then (crc / 2) ^^^ crcPoly else crc / 2

/-- Process one byte: XOR it into the low bits then run eight bit steps. -/
def crcByteStep (crc b : Nat) : Nat :=
  crcBit (crcBit (crcBit (crcBit (crcBit (crcBit (crcBit (crcBit (crc ^^^ b % 256))))))))

/-- `crc32.Update` without the pre/post complement: fold bytes into the
running (already complemented) state. -/
def crcUpdateBytes (crc : Nat) (data : Bytes) : Nat := data.foldl crcByteStep crc

/-- Initial running state: the complement of the zero digest. -/
def crcInit : Nat := 0xFFFFFFFF

/-- `Sum32` of a drained digest given the running state. -/
def crcSum32 (crc : Nat) : Nat := crc ^^^ 0xFFFFFFFF

/-- CRC32C of a byte string in one shot (`crc32.Checksum` semantics). -/
def crc32c (data : Bytes) : Nat := crcSum32 (crcUpdateBytes crcInit data)

/-- The checksum tap of `cryptutils.CalcStreamHash` (cryptutils.go lines
187 to 198) observed through a sequence of reads: the tee reader forwards
each pulled chunk to the consumer and folds it into the rolling hash; the
final accumulator is the fold over the chunks in pull order. -/
def tapStateAfter (chunks : List Bytes) : Nat := chunks.foldl crcUpdateBytes crcInit

/-! ## base64 URL encoding, `encoding/base64` with `base64.URLEncoding` -/

/-- Character of the URL-safe base64 alphabet for a six-bit index. -/
def b64c (n : Nat) : Nat :=
  if n < 26 then 65 + n
  else if n < 52 then 97 + (n - 26)
  else if n < 62 then 48 + (n - 52)
  else if n = 62 then 45
  else 95

/-- Index of a character in the URL-safe base64 alphabet, `none` for a
character outside the alphabet. -/
def b64i (c : Nat) : Option Nat :=
  if 65 ≤ c ∧ c ≤ 90 then some (c - 65)
  else if 97 ≤ c ∧ c ≤ 122 then some (c - 97 + 26)
  else if 48 ≤ c ∧ c ≤ 57 then some (c - 48 + 52)
  else if c = 45 then some 62
  else if c = 95 then some 63
  else none

/-- `base64.URLEncoding.EncodeToString`: three input bytes become four
alphabet characters; a trailing one or two bytes are padded with `=` (61). -/
def b64Encode : Bytes → Bytes
  | [] => []
  | [a] => [b64c (a / 4), b64c (a % 4 * 16), 61, 61]
  | [a, b] => [b64c (a / 4), b64c (a % 4 * 16 + b / 16), b64c (b % 16 * 4), 61]
  | a :: b :: c :: rest =>
      b64c (a / 4) :: b64c (a % 4 * 16 + b / 16) :: b64c (b % 16 * 4 + c / 64) ::
        b64c (c % 64) :: b64Encode rest

/-- `base64.URLEncoding.DecodeString`: decode four-character quantums,
allowing `=` padding only in the final quantum; any other shape or any
character outside the alphabet is an error (`none`). -/
def b64Decode : Bytes → Option Bytes
  | [] => some []
  | c0 :: c1 :: c2 :: c3 :: rest =>
      match b64i c0, b64i c1 with
      | some i0, some i1 =>
          if c2 = 61 then
            if c3 = 61 ∧ rest = [] then some [i0 * 4 + i1 / 16] else none
          else
            match b64i c2 with
            | some i2 =>
                if c3 = 61 then
                  if rest = [] then some [i0 * 4 + i1 / 16, i1 % 16 * 16 + i2 / 4] else none
                else
                  match b64i c3 with
                  | some i3 =>
                      (b64Decode rest).map
                        (fun bs => (i0 * 4 + i1 / 16) :: (i1 % 16 * 16 + i2 / 4) ::
                          (i2 % 4 * 64 + i3) :: bs)
                  | none => none
            | none => none
      | _, _ => none
  | _ => none

/-! ## Field cipher, AES-CFB (`EncryptString` / `DecryptString`) -/

/-- `aes.NewCipher` accepts exactly 16, 24 or 32 byte keys
(`KeySizeError` otherwise). -/
def aesKeyLenOk (key : Bytes) : Prop := key.length = 16 ∨ key.length = 24 ∨ key.length = 32

instance (key : Bytes) : Decidable (aesKeyLenOk key) := by
  unfold aesKeyLenOk; infer_instance

/-- CFB encryption as performed by one full `XORKeyStream` call of
`cipher.NewCFBEncrypter`: each keystream block is the AES encryption of
the previous ciphertext block (initially the IV); the recursion is driven
by the number of blocks. -/
def cfbEncBlocks (aes : Bytes → Bytes) : Nat → Bytes → Bytes → Bytes
  | 0, _, _ => []
  | n + 1, prev, pt =>
      let c := xorBytes (pt.take 16) (aes prev)
      c ++ cfbEncBlocks aes n c (pt.drop 16)

/-- CFB decryption as performed by one full `XORKeyStream` call of
`cipher.NewCFBDecrypter`: same keystream chain, but the block fed back is
taken from the incoming ciphertext. -/
def cfbDecBlocks (aes : Bytes → Bytes) : Nat → Bytes → Bytes → Bytes
  | 0, _, _ => []
  | n + 1, prev, ct =>
      let p := xorBytes (ct.take 16) (aes prev)
      p ++ cfbDecBlocks aes n (ct.take 16) (ct.drop 16)

/-- `cryptutils.EncryptString` (cryptutils.go lines 22 to 39):
reject bad key lengths, prepend the random 16-byte IV to the CFB
ciphertext, base64url-encode. `aesE` is the external AES block encryption;
`iv` stands for the 16 random bytes read from `rand.Reader`. -/
def EncryptString (aesE : Bytes → Bytes → Bytes) (key iv plaintext : Bytes) :
    Option Bytes :=
  if aesKeyLenOk key then
    some (b64Encode (iv ++ cfbEncBlocks (aesE key) ((plaintext.length + 15) / 16) iv plaintext))
  else none

/-- `cryptutils.DecryptString` (cryptutils.go lines 44 to 68):
base64url-decode, reject anything shorter than one AES block, reject bad
key lengths, split the IV off and CFB-decrypt the rest. -/
def DecryptString (aesE : Bytes → Bytes → Bytes) (key ciphertext : Bytes) :
    Option Bytes :=
  match b64Decode ciphertext with
  | none => none
  | some bs =>
      if bs.length < 16 then none
      else if aesKeyLenOk key then
        let iv := bs.take 16
        let ct := bs.drop 16
        some (cfbDecBlocks (aesE key) ((ct.length + 15) / 16) iv ct)
      else none

/-! ## Bank-card validation (`internal/domain/vault/bankcard`) -/

/-- ASCII decimal digit test. -/
def isDig (c : Nat) : Bool := 48 ≤ c && c ≤ 57

/-- Value of an ASCII digit. -/
def digVal (c : Nat) : Nat := c - 48

/-- Two-digit decimal value. -/
def val2 (a b : Nat) : Nat := digVal a * 10 + digVal b

/-- Success of Go `strconv.Atoi`: an optional sign followed by at least
one digit (no overflow can occur at the lengths validated here). -/
def atoiOk : Bytes → Bool
  | [] => false
  | c :: rest =>
      if c = 43 ∨ c = 45 then !rest.isEmpty && rest.all isDig
      else (c :: rest).all isDig

/-- `validateCardCvv` (bankcard.go lines 224 to 235): the CVV must have
length exactly 3 and parse through `strconv.Atoi`. -/
def validateCardCvv (cvv : Bytes) : Bool := cvv.length == 3 && atoiOk cvv

/-- Leap year as in Go `time`. -/
def isLeapYear (y : Nat) : Bool := y % 4 == 0 && (y % 100 != 0 || y % 400 == 0)

/-- Days in a month as validated by Go `time.Parse`. -/
def daysIn (m y : Nat) : Nat :=
  if m = 2 then (if isLeapYear y then 29 else 28)
  else if m = 4 ∨ m = 6 ∨ m = 9 ∨ m = 11 then 30
  else 31

/-- Skip an optional fractional-seconds part: a period or comma followed
by at least one digit, consuming all following digits (Go `time.Parse`
accepts a fraction after the seconds even when the layout has none). -/
def dropFrac (s : Bytes) : Bytes :=
  match s with
  | c :: d :: rest =>
      if (c == 46 || c == 44) && isDig d then (d :: rest).dropWhile isDig else c :: d :: rest
  | _ => s

/-- Time-zone suffix of the RFC3339 layout `Z07:00`: either a literal `Z`
or a sign followed by `hh:mm` with hour at most 23 and minute at most 59. -/
def zoneOk : Bytes → Bool
  | [90] => true
  | [sg, h1, h2, cl, m1, m2] =>
      (sg == 43 || sg == 45) && isDig h1 && isDig h2 && cl == 58 && isDig m1 && isDig m2 &&
        val2 h1 h2 ≤ 23 && val2 m1 m2 ≤ 59
  | _ => false

/-- Success of Go `time.Parse(time.RFC3339, s)`: the exact layout
`yyyy-mm-ddThh:mm:ss` followed by an optional fraction and a zone, with
month, day (against the month length), hour, minute and second ranges
checked. -/
def rfc3339Ok (s : Bytes) : Bool :=
  match s with
  | y1 :: y2 :: y3 :: y4 :: 45 :: m1 :: m2 :: 45 :: d1 :: d2 :: 84 ::
      h1 :: h2 :: 58 :: n1 :: n2 :: 58 :: s1 :: s2 :: rest =>
      isDig y1 && isDig y2 && isDig y3 && isDig y4 && isDig m1 && isDig m2 &&
        isDig d1 && isDig d2 && isDig h1 && isDig h2 && isDig n1 && isDig n2 &&
        isDig s1 && isDig s2 &&
        (let year := ((digVal y1 * 10 + digVal y2) * 10 + digVal y3) * 10 + digVal y4
         let mon := val2 m1 m2
         let day := val2 d1 d2
         1 ≤ mon && mon ≤ 12 && 1 ≤ day && day ≤ daysIn mon year &&
           val2 h1 h2 ≤ 23 && val2 n1 n2 ≤ 59 && val2 s1 s2 ≤ 59 &&
           zoneOk (dropFrac rest))
  | _ => false

/-- `validateCardExpireAt` (bankcard.go lines 237 to 245): the expiry
string must parse as RFC3339. -/
def validateCardExpireAt (expireAt : Bytes) : Bool := rfc3339Ok expireAt

/-- Luhn sum of a digit string processed from the rightmost character,
doubling every second digit; `none` on a non-digit character. This is
`validateCardNumber` of the bankcard package generation that carries it
(src/unnamed/part_000); the bankcard.go generation cited by the claim has
no card-number checksum validation at all. -/
def luhnSum : Bytes → Bool → Option Nat
  | [], _ => some 0
  | c :: rest, dbl =>
      if isDig c then
        let d0 := digVal c
        let d := if dbl then (if d0 * 2 > 9 then d0 * 2 - 9 else d0 * 2) else d0
        (luhnSum rest (!dbl)).map (· + d)
      else none

/-- `validateCardNumber` (src/unnamed/part_000 lines 226 to 252): strip
spaces, then check the Luhn sum of the digits is divisible by 10. -/
def validateCardNumber (cardNumber : Bytes) : Bool :=
  match luhnSum ((cardNumber.filter (fun c => c != 32)).reverse) false with
  | some sum => sum % 10 == 0
  | none => false

/-- Bank-card data record (`bankcard.Data`). -/
structure CardData where
  number : Bytes
  name : Bytes
  cvv : Bytes
  expireAt : Bytes
deriving DecidableEq, Repr

/-- Validation errors of bank-card construction. -/
inductive CardErr where
  | emptyNumber
  | emptyName
  | emptyCvv
  | emptyExpire
  | invalidCvv
  | invalidExpire
deriving DecidableEq, Repr

/-- `bankcard.NewData` (bankcard.go lines 46 to 69): reject any empty
field, otherwise build the record. -/
def NewData (number name cvv expireAt : Bytes) : Except CardErr CardData :=
  if number = [] then .error .emptyNumber
  else if name = [] then .error .emptyName
  else if cvv = [] then .error .emptyCvv
  else if expireAt = [] then .error .emptyExpire
  else .ok ⟨number, name, cvv, expireAt⟩

/-- `bankcard.CreateData` (bankcard.go lines 30 to 44, the file cited by
the claim; the newest package generation in src/unnamed/part_001 performs
the same checks): reject an empty number, an invalid CVV and an invalid
expiry date, then defer to `NewData`. No card-number checksum is
validated. -/
def CreateData (number name cvv expireAt : Bytes) : Except CardErr CardData :=
  if number = [] then .error .emptyNumber
  else if ¬ validateCardCvv cvv then .error .invalidCvv
  else if ¬ validateCardExpireAt expireAt then .error .invalidExpire
  else NewData number name cvv expireAt

/-! ## Retry wrapper (`pgutils.WithRetry`, src/unnamed/part_020) -/

/-- Errors surfaced by a metadata-store operation, as classified by
`isRetryableError`: a connection-refused syscall error, a PostgreSQL
error carrying an SQLSTATE code, or anything else (constraint violations,
not-found conditions and so on). -/
inductive DBErr where
  | connRefused
  | pg (code : String)
  | other (tag : Nat)
deriving DecidableEq, Repr

/-- `pgerrcode.IsConnectionException`: the SQLSTATE codes of the
connection-exception class 08, as listed by the generated pgerrcode
function that the retry wrapper links to. -/
def isConnExceptionCode (code : String) : Bool :=
  code ∈ ["08000", "08003", "08006", "08001", "08004", "08007", "08P01"]

/-- `pgutils.isRetryableError` (src/unnamed/part_020 lines 14 to 28):
connection refused, or a PostgreSQL error in the connection-exception
class. -/
def isRetryable : DBErr → Bool
  | .connRefused => true
  | .pg code => isConnExceptionCode code
  | .other _ => false

/-- Outcome of `pgutils.WithRetry`: success or failure, with the number of
`operation()` calls made and the backoff sleeps (in seconds) performed. -/
inductive RetryOutcome where
  | ok (calls : Nat) (waits : List Nat)
  | failedFast (e : DBErr) (calls : Nat) (waits : List Nat)
  | exhausted (e : DBErr) (calls : Nat) (waits : List Nat)
deriving DecidableEq, Repr

/-- The wait before retry number `i` (zero-based attempt index):
`time.Duration(i*retryWaitInterval + 1) * time.Second` with
`retryWaitInterval = 2`, giving 1s, 3s, 5s. -/
def retryWaitSeconds (i : Nat) : Nat := i * 2 + 1

/-- Loop body of `WithRetry`: `op i` is the error (or `none` on success)
of the `i`-th call of `operation()`; `remaining` counts the attempts left
out of `retryCount = 3`; `waits` accumulates the sleeps; `last` is the
error of the previous attempt (for the exhausted message). -/
def withRetryAux (op : Nat → Option DBErr) :
    Nat → Nat → List Nat → DBErr → RetryOutcome
  | i, 0, waits, last => .exhausted last i waits
  | i, remaining + 1, waits, _ =>
      match op i with
      | none => .ok (i + 1) waits
      | some e =>
          if isRetryable e then
            withRetryAux op (i + 1) remaining (waits ++ [retryWaitSeconds i]) e
          else .failedFast e (i + 1) waits

/-- `pgutils.WithRetry` (src/unnamed/part_020 lines 30 to 59): up to 3
attempts; a retryable failure sleeps 1s, 3s, 5s before the loop
continues; a non-retryable failure returns immediately; exhausting the
loop wraps the last error. -/
def withRetry (op : Nat → Option DBErr) : RetryOutcome :=
  withRetryAux op 0 3 [] (.other 0)

/-! ## Blob store (`internal/storage/objrepo`)

The `objrepo.Storage` interface is in src (interface.go); the minio
implementation in src lacks `GetObjectInfo`, and the behaviour of the
minio client for absent objects is not repository code. The store is
therefore modelled from the spec, section 4.4: `GetObject` and
`GetObjectInfo` fail with NotFound for an absent object, `RemoveObject`
is idempotent (removing an already-absent object succeeds), and
`PutObject` overwrites. Faults of the underlying store are injected
through `BlobFaults`. -/

/-- Errors of the blob store: the sentinel `objrepo.ErrObjNotExist` or
any other storage failure. -/
inductive BlobErr where
  | objNotExist
  | ioFault (tag : Nat)
deriving DecidableEq, Repr

/-- The blob-store operations of `objrepo.Storage`, recorded in call
traces. -/
inductive BlobOp where
  | put
  | getInfo
  | get
  | remove
deriving DecidableEq, Repr

/-- Injected failures of the blob store, `none` meaning the operation
behaves normally. -/
structure BlobFaults where
  putErr : Option BlobErr := none
  getInfoErr : Option BlobErr := none
  getErr : Option BlobErr := none
  removeErr : Option BlobErr := none
deriving DecidableEq, Repr

/-- Blob-store contents: object name to stored bytes. -/
abbrev ObjStore := List (Bytes × Bytes)

/-- Result of a blob write or stat (`objrepo.ObjectInfo`); the location is
the opaque download locator that `PutObject` reports, modelled by the
object name. -/
structure ObjInfo where
  name : Bytes
  size : Nat
  location : Bytes
deriving DecidableEq, Repr

/-- Lookup of an object by name. -/
def objLookup (objs : ObjStore) (name : Bytes) : Option Bytes :=
  (objs.find? (fun p => p.1 == name)).map (·.2)

/-- Modelled from the spec: `PutObject(name, sizeHint, reader) ->
ObjectInfo | error` writes (or overwrites) the object. -/
def putObject (f : BlobFaults) (objs : ObjStore) (name content : Bytes) :
    Except BlobErr ObjInfo × ObjStore :=
  match f.putErr with
  | some e => (.error e, objs)
  | none => (.ok ⟨name, content.length, name⟩, (name, content) :: objs.filter (fun p => p.1 != name))

/-- Modelled from the spec: `GetObjectInfo(name) -> stat-only result |
NotFound` (the minio implementation of this method is not under src). -/
def getObjectInfo (f : BlobFaults) (objs : ObjStore) (name : Bytes) : Except BlobErr ObjInfo :=
  match f.getInfoErr with
  | some e => .error e
  | none =>
      match objLookup objs name with
      | some content => .ok ⟨name, content.length, name⟩
      | none => .error .objNotExist

/-- Modelled from the spec: `GetObject(name) -> seekable stream |
NotFound`. -/
def getObject (f : BlobFaults) (objs : ObjStore) (name : Bytes) : Except BlobErr Bytes :=
  match f.getErr with
  | some e => .error e
  | none =>
      match objLookup objs name with
      | some content => .ok content
      | none => .error .objNotExist

/-- Modelled from the spec: `RemoveObject(name) -> success | error` is
idempotent; removing an already-absent object is treated as success. -/
def removeObject (f : BlobFaults) (objs : ObjStore) (name : Bytes) :
    Except BlobErr Unit × ObjStore :=
  match f.removeErr with
  | some e => (.error e, objs)
  | none => (.ok (), objs.filter (fun p => p.1 != name))

/-! ## Shared service plumbing -/

/-- Errors surfaced by the secret services: the sentinel entry errors of
textsvc/filesvc, the object-not-found sentinel, or a wrapped lower-layer
error (`fmt.Errorf` with the failing operation as context). -/
inductive SvcErr where
  | entryNotFound
  | entryAlreadyExists
  | objectNotFound
  | storageErr (op : BlobOp) (e : BlobErr)
  | dbUpdateErr
  | hexErr
deriving DecidableEq, Repr

/-- Errors that signal absent CONTENT (rather than an absent record):
the object-not-found sentinel of the services, or a wrapped
`ErrObjNotExist` from the blob store (`errors.Is` still matches the
sentinel through `fmt.Errorf` wrapping). -/
def isContentAbsentErr : SvcErr → Bool
  | .objectNotFound => true
  | .storageErr _ .objNotExist => true
  | _ => false

/-- The external AES and scrypt primitives threaded through the services. -/
structure CryptoEnv where
  scryptK : Bytes → Bytes → Nat → Nat → Nat → Nat → Bytes
  aesE : Bytes → Bytes → Bytes

/-- `getObjName` (textsvc.go lines 276 to 285, filesvc.go likewise):
`userID/secretID`, prefixed by the base path when one is set. -/
def getObjName (basePath userID secretID : Bytes) : Bytes :=
  let objName := userID ++ 47 :: secretID
  if basePath = [] then objName else basePath ++ 47 :: objName

/-- Hex digit character (lowercase, as `hex.EncodeToString`). -/
def hexDigit (n : Nat) : Nat := if n < 10 then 48 + n else 87 + n

/-- `hex.EncodeToString`: two hex characters per byte. -/
def hexEncode : Bytes → Bytes
  | [] => []
  | b :: rest => hexDigit (b / 16 % 16) :: hexDigit (b % 16) :: hexEncode rest

/-- Value of one hex character, `none` outside `0-9a-fA-F`. -/
def hexDigitVal (c : Nat) : Option Nat :=
  if 48 ≤ c ∧ c ≤ 57 then some (c - 48)
  else if 97 ≤ c ∧ c ≤ 102 then some (c - 87)
  else if 65 ≤ c ∧ c ≤ 70 then some (c - 55)
  else none

/-- `hex.DecodeString`. -/
def hexDecode : Bytes → Option Bytes
  | [] => some []
  | [_] => none
  | a :: b :: rest =>
      match hexDigitVal a, hexDigitVal b, hexDecode rest with
      | some x, some y, some bs => some ((x * 16 + y) :: bs)
      | _, _, _ => none

/-- Decimal rendering of a natural (`fmt.Sprintf` with the decimal verb),
fuel-driven to stay structural. -/
def natToDecCore : Nat → Nat → Bytes
  | 0, _ => []
  | fuel + 1, n => if n < 10 then [48 + n] else natToDecCore fuel (n / 10) ++ [48 + n % 10]

/-- Decimal ASCII rendering of a natural number. -/
def natToDec (n : Nat) : Bytes := natToDecCore (n + 1) n

/-! ## Text secret service (`internal/services/textsvc/textsvc.go`) -/

/-- `text.ContentInfo` (text.go): salt, iv, location and checksum, all
strings. -/
structure TextContentInfo where
  salt : Bytes
  iv : Bytes
  location : Bytes
  checksum : Bytes
deriving DecidableEq, Repr

/-- `text.Secret`. -/
structure TextSecret where
  id : Bytes
  name : Bytes
  userID : Bytes
  metadata : List (Bytes × Bytes)
  createdAt : Nat
  updatedAt : Nat
  info : TextContentInfo
deriving DecidableEq, Repr

/-- Metadata table of a text secret repository, keyed by
`(userID, name)`. -/
abbrev TextDB := List ((Bytes × Bytes) × TextSecret)

/-- `GetSecret` of the metadata repository: lookup by user and name. -/
def dbLookup (db : TextDB) (userID name : Bytes) : Option TextSecret :=
  (db.find? (fun p => p.1 == (userID, name))).map (·.2)

/-- `UpdateSecret` of the metadata repository: full-row replace, `none`
when the row is absent. -/
def dbUpdate (db : TextDB) (userID name : Bytes) (s : TextSecret) : Option TextDB :=
  match dbLookup db userID name with
  | none => none
  | some _ => some (db.map (fun p => if p.1 == (userID, name) then (p.1, s) else p))

/-- `DeleteSecret` of the metadata repository: remove the row, `none`
when it is absent. -/
def dbRemove (db : TextDB) (userID name : Bytes) : Option TextDB :=
  match dbLookup db userID name with
  | none => none
  | some _ => some (db.filter (fun p => p.1 != (userID, name)))

/-- `SecretService.UploadSecret` (textsvc.go lines 183 to 226). The
caller-supplied reader is wrapped by the checksum tap, encrypted with a
fresh salt and iv, and streamed into the blob store; `chunks` is the
sequence of reads with which `PutObject` drains the stream (their
concatenation is the payload), and the tap accumulator is read only after
the drain. Only then is the record updated with the new content info.
Returns the result, the new metadata table, the new blob store and the
trace of blob-store calls. -/
def uploadSecret (env : CryptoEnv) (cryptoKey basePath : Bytes) (f : BlobFaults)
    (salt iv : Bytes) (chunks : List Bytes) (now : Nat)
    (db : TextDB) (objs : ObjStore) (userID secretName : Bytes) :
    Except SvcErr TextSecret × TextDB × ObjStore × List BlobOp :=
  match dbLookup db userID secretName with
  | none => (.error .entryNotFound, db, objs, [])
  | some secret =>
      let data := chunks.flatten
      let ciphertext := encryptStreamDrain env.scryptK env.aesE cryptoKey salt iv data
      let objName := getObjName basePath userID secret.id
      match putObject f objs objName ciphertext with
      | (.error e, objs') => (.error (.storageErr .put e), db, objs', [.put])
      | (.ok info, objs') =>
          let checksum := crcSum32 (tapStateAfter chunks)
          let contInfo : TextContentInfo :=
            ⟨hexEncode salt, hexEncode iv, info.location, natToDec checksum⟩
          let secret' := { secret with info := contInfo, updatedAt := now }
          match dbUpdate db userID secretName secret' with
          | none => (.error .dbUpdateErr, db, objs', [.put])
          | some db' => (.ok secret', db', objs', [.put])

/-- `SecretService.DownloadSecret` (textsvc.go lines 229 to 274): fetch
the record, stat the object (mapping `ErrObjNotExist` to the
`ErrSecretObjectNotFound` sentinel), fetch the object, hex-decode the
stored salt and iv and return the lazily decrypting stream (modelled
fully drained). -/
def downloadSecret (env : CryptoEnv) (cryptoKey basePath : Bytes) (f : BlobFaults)
    (db : TextDB) (objs : ObjStore) (userID secretName : Bytes) :
    Except SvcErr (TextSecret × Bytes) × List BlobOp :=
  match dbLookup db userID secretName with
  | none => (.error .entryNotFound, [])
  | some secret =>
      let objName := getObjName basePath userID secret.id
      match getObjectInfo f objs objName with
      | .error .objNotExist => (.error .objectNotFound, [.getInfo])
      | .error e => (.error (.storageErr .getInfo e), [.getInfo])
      | .ok _ =>
          match getObject f objs objName with
          | .error e => (.error (.storageErr .get e), [.getInfo, .get])
          | .ok content =>
              match hexDecode secret.info.salt, hexDecode secret.info.iv with
              | some salt, some iv =>
                  (.ok (secret, decryptStreamDrain env.scryptK env.aesE cryptoKey salt iv content),
                    [.getInfo, .get])
              | _, _ => (.error .hexErr, [.getInfo, .get])

/-- `SecretService.DeleteSecret` (textsvc.go lines 153 to 180): fetch the
record, remove the blob (any removal error propagates and aborts), then
remove the metadata row. -/
def deleteSecret (basePath : Bytes) (f : BlobFaults)
    (db : TextDB) (objs : ObjStore) (userID secretName : Bytes) :
    Except SvcErr Unit × TextDB × ObjStore × List BlobOp :=
  match dbLookup db userID secretName with
  | none => (.error .entryNotFound, db, objs, [])
  | some secret =>
      let objName := getObjName basePath userID secret.id
      match removeObject f objs objName with
      | (.error e, objs') => (.error (.storageErr .remove e), db, objs', [.remove])
      | (.ok _, objs') =>
          match dbRemove db userID secretName with
          | none => (.error .entryNotFound, db, objs', [.remove])
          | some db' => (.ok (), db', objs', [.remove])

/-! ## File secret service (`internal/services/filesvc/filesvc.go`) -/

/-- `file.ContentInfo` (src/unnamed/part_005): file name, location,
checksum, salt, iv and size. -/
structure FileContentInfo where
  fileName : Bytes
  location : Bytes
  checksum : Bytes
  salt : Bytes
  iv : Bytes
  size : Nat
deriving DecidableEq, Repr

/-- `file.Secret`. -/
structure FileSecret where
  id : Bytes
  name : Bytes
  userID : Bytes
  metadata : List (Bytes × Bytes)
  createdAt : Nat
  updatedAt : Nat
  info : FileContentInfo
deriving DecidableEq, Repr

/-- Metadata table of the file secret repository. -/
abbrev FileDB := List ((Bytes × Bytes) × FileSecret)

/-- `GetSecret` of the file metadata repository. -/
def fdbLookup (db : FileDB) (userID name : Bytes) : Option FileSecret :=
  (db.find? (fun p => p.1 == (userID, name))).map (·.2)

/-- `UpdateSecret` of the file metadata repository. -/
def fdbUpdate (db : FileDB) (userID name : Bytes) (s : FileSecret) : Option FileDB :=
  match fdbLookup db userID name with
  | none => none
  | some _ => some (db.map (fun p => if p.1 == (userID, name) then (p.1, s) else p))

/-- `DeleteSecret` of the file metadata repository. -/
def fdbRemove (db : FileDB) (userID name : Bytes) : Option FileDB :=
  match fdbLookup db userID name with
  | none => none
  | some _ => some (db.filter (fun p => p.1 != (userID, name)))

/-- `FileService.UploadFile` (filesvc.go lines 766 to 812): same shape as
the text upload, with the request file name and the reported object size
stored in the content info. -/
def uploadFile (env : CryptoEnv) (cryptoKey basePath : Bytes) (f : BlobFaults)
    (salt iv : Bytes) (chunks : List Bytes) (now : Nat) (fileName : Bytes)
    (db : FileDB) (objs : ObjStore) (userID secretName : Bytes) :
    Except SvcErr FileSecret × FileDB × ObjStore × List BlobOp :=
  match fdbLookup db userID secretName with
  | none => (.error .entryNotFound, db, objs, [])
  | some secret =>
      let data := chunks.flatten
      let ciphertext := encryptStreamDrain env.scryptK env.aesE cryptoKey salt iv data
      let objName := getObjName basePath userID secret.id
      match putObject f objs objName ciphertext with
      | (.error e, objs') => (.error (.storageErr .put e), db, objs', [.put])
      | (.ok info, objs') =>
          let checksum := crcSum32 (tapStateAfter chunks)
          let contInfo : FileContentInfo :=
            ⟨fileName, info.location, natToDec checksum, hexEncode salt, hexEncode iv, info.size⟩
          let secret' := { secret with info := contInfo, updatedAt := now }
          match fdbUpdate db userID secretName secret' with
          | none => (.error .dbUpdateErr, db, objs', [.put])
          | some db' => (.ok secret', db', objs', [.put])

/-- `FileService.DownloadFile` (filesvc.go lines 839 to 876): fetch the
record, then fetch the object directly (no stat, no mapping to the
object-not-found sentinel), hex-decode the stored salt and iv and return
the decrypting stream. -/
def downloadFile (env : CryptoEnv) (cryptoKey basePath : Bytes) (f : BlobFaults)
    (db : FileDB) (objs : ObjStore) (userID secretName : Bytes) :
    Except SvcErr (FileSecret × Bytes) × List BlobOp :=
  match fdbLookup db userID secretName with
  | none => (.error .entryNotFound, [])
  | some secret =>
      let objName := getObjName basePath userID secret.id
      match getObject f objs objName with
      | .error e => (.error (.storageErr .get e), [.get])
      | .ok content =>
          match hexDecode secret.info.salt, hexDecode secret.info.iv with
          | some salt, some iv =>
              (.ok (secret, decryptStreamDrain env.scryptK env.aesE cryptoKey salt iv content),
                [.get])
          | _, _ => (.error .hexErr, [.get])

/-- `FileService.DeleteFile` (filesvc.go lines 879 to 915): fetch the
record, stat the object; when the object does not exist the service
returns the `ErrFileObjectNotFound` sentinel without touching the
metadata row; otherwise remove the blob (errors propagate) and then the
row. -/
def deleteFile (basePath : Bytes) (f : BlobFaults)
    (db : FileDB) (objs : ObjStore) (userID secretName : Bytes) :
    Except SvcErr Unit × FileDB × ObjStore × List BlobOp :=
  match fdbLookup db userID secretName with
  | none => (.error .entryNotFound, db, objs, [])
  | some secret =>
      let objName := getObjName basePath userID secret.id
      match getObjectInfo f objs objName with
      | .error .objNotExist => (.error .objectNotFound, db, objs, [.getInfo])
      | .error e => (.error (.storageErr .getInfo e), db, objs, [.getInfo])
      | .ok _ =>
          match removeObject f objs objName with
          | (.error e, objs') => (.error (.storageErr .remove e), db, objs', [.getInfo, .remove])
          | (.ok _, objs') =>
              match fdbRemove db userID secretName with
              | none => (.error .entryNotFound, db, objs', [.getInfo, .remove])
              | some db' => (.ok (), db', objs', [.getInfo, .remove])

/-! ## In-memory metadata repository (`internal/storage/filerepo/inmemory.go`)

The store is a Go map from userID to a map from secret name to a
`file.Secret` VALUE. `AddSecret` and `UpdateSecret` insert `*secret` (a
struct copy of the caller-held record), `GetSecret` and `ListSecrets`
return the address of a fresh local copy. The struct copy is shallow: the
`metadata map[string]string` field and the `info *ContentInfo` field are
references, so the copy in the store and the caller-held record point at
the same metadata map and the same ContentInfo cell. The embedding makes
this explicit with a heap of metadata-map cells and ContentInfo cells;
a secret STRUCT holds indices into the heap. -/

/-- The shallow `file.Secret` struct: scalar fields plus references into
the heap for the metadata map and the ContentInfo. -/
structure MemSecret where
  id : Bytes
  name : Bytes
  userID : Bytes
  metaRef : Nat
  infoRef : Nat
  createdAt : Nat
  updatedAt : Nat
deriving DecidableEq, Repr

/-- Heap of shared mutable cells: metadata maps and ContentInfo records,
addressed by index. -/
structure MemHeap where
  metas : List (List (Bytes × Bytes))
  infos : List FileContentInfo
deriving DecidableEq, Repr

/-- The repository table: `(userID, name)` to the stored struct copy. -/
abbrev MemRepo := List ((Bytes × Bytes) × MemSecret)

/-- Errors of the in-memory repository. -/
inductive RepoErr where
  | alreadyExists
  | notFound
deriving DecidableEq, Repr

/-- `InMemory.AddSecret` (inmemory.go lines 27 to 56): reject a duplicate
`(userID, name)`, otherwise store the struct value `*secret` (a shallow
copy sharing the heap cells) and hand the caller back its own record. -/
def memAddSecret (repo : MemRepo) (s : MemSecret) : Except RepoErr Unit × MemRepo :=
  match (repo.find? (fun p => p.1 == (s.userID, s.name))).map (·.2) with
  | some _ => (.error .alreadyExists, repo)
  | none => (.ok (), ((s.userID, s.name), s) :: repo)

/-- `InMemory.GetSecret` (inmemory.go lines 58 to 77): look the struct
value up and return the address of a fresh local copy of it (which still
shares the metadata map and ContentInfo cells). -/
def memGetSecret (repo : MemRepo) (userID name : Bytes) : Except RepoErr MemSecret :=
  match (repo.find? (fun p => p.1 == (userID, name))).map (·.2) with
  | some s => .ok s
  | none => .error .notFound

/-- `InMemory.UpdateSecret` (inmemory.go lines 96 to 118): require the
row to exist, then replace it with the struct value `*secret`. -/
def memUpdateSecret (repo : MemRepo) (s : MemSecret) : Except RepoErr MemSecret × MemRepo :=
  match (repo.find? (fun p => p.1 == (s.userID, s.name))).map (·.2) with
  | none => (.error .notFound, repo)
  | some _ =>
      (.ok s, repo.map (fun p => if p.1 == (s.userID, s.name) then (p.1, s) else p))

/-- `InMemory.DeleteSecret` (inmemory.go lines 120 to 140): require the
row to exist, then delete it. -/
def memDeleteSecret (repo : MemRepo) (userID name : Bytes) : Except RepoErr Unit × MemRepo :=
  match (repo.find? (fun p => p.1 == (userID, name))).map (·.2) with
  | none => (.error .notFound, repo)
  | some _ => (.ok (), repo.filter (fun p => p.1 != (userID, name)))

/-- Write one cell of a list, leaving other indices alone. -/
def listSet {α : Type} : List α → Nat → α → List α
  | [], _, _ => []
  | _ :: xs, 0, v => v :: xs
  | x :: xs, i + 1, v => x :: listSet xs i v

/-- `Secret.AddMetadata` performed by a caller on a held record: a write
through the shared metadata map reference (`s.metadata[k] = v`), touching
the heap, not any repository structure. -/
def callerAddMetadata (h : MemHeap) (s : MemSecret) (k v : Bytes) : MemHeap :=
  let cell := (k, v) :: (h.metas.getD s.metaRef []).filter (fun p => p.1 != k)
  { h with metas := listSet h.metas s.metaRef cell }

/-- What the repository is observed to store for one key: the struct copy
together with the metadata map and ContentInfo its references reach in
the heap. -/
def storedObservation (h : MemHeap) (repo : MemRepo) (userID name : Bytes) :
    Option (MemSecret × List (Bytes × Bytes) × FileContentInfo) :=
  match (repo.find? (fun p => p.1 == (userID, name))).map (·.2) with
  | none => none
  | some s => some (s, h.metas.getD s.metaRef [], h.infos.getD s.infoRef ⟨[], [], [], [], [], 0⟩)

/-! # Theorems -/

/-- The CTR keystream consists of `n` full 16-byte blocks whenever the
block cipher produces 16-byte blocks. -/
theorem ctrKeystream_length (aesE : Bytes → Bytes → Bytes)
    (haes : ∀ k b, (aesE k b).length = 16) (key : Bytes) :
    ∀ (n : Nat) (iv : Bytes), (ctrKeystream aesE key iv n).length = 16 * n := by
  intro n
  induction n with
  | zero => intro iv; rfl
  | succ n ih =>
      intro iv
      simp only [ctrKeystream, List.length_append, haes, ih]
      ring

/-- XORing twice with the same keystream is the identity, provided the
keystream is at least as long as the data. -/
theorem xorBytes_cancel : ∀ (data ks : Bytes), data.length ≤ ks.length →
    xorBytes (xorBytes data ks) ks = data := by
  intro data
  induction data with
  | nil => intro ks _; rfl
  | cons a rest ih =>
      intro ks h
      cases ks with
      | nil => simp at h
      | cons k krest =>
          simp only [xorBytes, List.zipWith_cons_cons, List.cons.injEq]
          refine ⟨Nat.xor_cancel_right k a, ?_⟩
          exact ih krest (by simpa using h)

/-- Claim C1: for every passphrase and every finite byte stream, draining
the decrypting reader of `DecryptStream` applied (with the salt and iv
produced by `EncryptStream`) to the drained output of the encrypting
reader of `EncryptStream` reproduces the original bytes: the scrypt KDF
re-derives the identical key from the passphrase and salt, and the CTR
keystream cancels itself. Holds for every KDF function and every block
cipher with 16-byte blocks. -/
theorem claim_C1 (scryptK : Bytes → Bytes → Nat → Nat → Nat → Nat → Bytes)
    (aesE : Bytes → Bytes → Bytes) (haes : ∀ k b, (aesE k b).length = 16)
    (passphrase salt iv data : Bytes) :
    decryptStreamDrain scryptK aesE passphrase salt iv
      (encryptStreamDrain scryptK aesE passphrase salt iv data) = data := by
  unfold decryptStreamDrain encryptStreamDrain
  have hxlen : (xorBytes data
      (ctrKeystream aesE (scryptK passphrase salt 32768 8 1 32) iv ((data.length + 15) / 16))).length
      = data.length := by
    simp only [xorBytes, List.length_zipWith,
      ctrKeystream_length aesE haes _ ((data.length + 15) / 16) iv]
    omega
  rw [hxlen]
  apply xorBytes_cancel
  rw [ctrKeystream_length aesE haes _ ((data.length + 15) / 16) iv]
  omega

/-- Witness for claim C1 at concrete inputs. -/
theorem claim_C1_witness :
    decryptStreamDrain (fun _ _ _ _ _ _ => List.replicate 32 0)
      (fun _ _ => List.replicate 16 7) [1, 2] [3] (List.replicate 16 0)
      (encryptStreamDrain (fun _ _ _ _ _ _ => List.replicate 32 0)
        (fun _ _ => List.replicate 16 7) [1, 2] [3] (List.replicate 16 0)
        [10, 20, 30, 400]) = [10, 20, 30, 400] :=
  claim_C1 (fun _ _ _ _ _ _ => List.replicate 32 0) (fun _ _ => List.replicate 16 7)
    (fun _ _ => List.length_replicate 16 7) [1, 2] [3] (List.replicate 16 0) [10, 20, 30, 400]

/-- Folding bytes into a running CRC state distributes over
concatenation. -/
theorem crcUpdateBytes_append (crc : Nat) (a b : Bytes) :
    crcUpdateBytes crc (a ++ b) = crcUpdateBytes (crcUpdateBytes crc a) b := by
  simp [crcUpdateBytes, List.foldl_append]

/-- The tap state after any sequence of reads equals the CRC state of
their concatenation: chunk boundaries do not matter. -/
theorem tapStateAfter_flatten : ∀ (chunks : List Bytes) (crc : Nat),
    chunks.foldl crcUpdateBytes crc = crcUpdateBytes crc chunks.flatten := by
  intro chunks
  induction chunks with
  | nil => intro crc; rfl
  | cons c rest ih =>
      intro crc
      simp only [List.foldl_cons, List.flatten_cons, crcUpdateBytes_append, ih]

/-- Looking a key up after a full-row replace of that key yields the new
row; other keys and absent keys are unaffected by the map. -/
theorem find_update_lookup {β : Type} (key : Bytes × Bytes) (s : β) :
    ∀ (db : List ((Bytes × Bytes) × β)),
      (((db.map (fun p => if p.1 == key then (p.1, s) else p)).find? (fun p => p.1 == key)).map (·.2))
        = ((db.find? (fun p => p.1 == key)).map (fun _ => s)) := by
  intro db
  induction db with
  | nil => rfl
  | cons p rest ih =>
      by_cases hp : p.1 == key
      · simp [List.find?, hp]
      · simp only [List.map_cons, List.find?, hp, if_neg, Bool.false_eq_true, ite_false]
        simpa [hp] using ih

/-- Claim C4: for every upload, the checksum recorded in the content
info equals the CRC32C over the original plaintext bytes: the tap wraps
the input before encryption, the accumulator folds exactly the bytes
pulled through (in any chunking), and it is read only after the blob
write has drained the stream. -/
theorem claim_C4 (env : CryptoEnv) (cryptoKey basePath : Bytes) (f : BlobFaults)
    (salt iv : Bytes) (chunks : List Bytes) (now : Nat) (db : TextDB) (objs : ObjStore)
    (userID secretName data : Bytes) (secret : TextSecret)
    (hget : dbLookup db userID secretName = some secret)
    (hput : f.putErr = none) (hdata : chunks.flatten = data) :
    ∃ s' db' objs',
      uploadSecret env cryptoKey basePath f salt iv chunks now db objs userID secretName
        = (.ok s', db', objs', [.put]) ∧
      s'.info.checksum = natToDec (crc32c data) ∧
      dbLookup db' userID secretName = some s' := by
  unfold uploadSecret
  rw [hget]
  dsimp only
  unfold putObject
  rw [hput]
  dsimp only
  unfold dbUpdate
  rw [hget]
  dsimp only
  refine ⟨_, _, _, rfl, ?_, ?_⟩
  · show natToDec (crcSum32 (tapStateAfter chunks)) = natToDec (crc32c data)
    rw [crc32c, ← hdata, tapStateAfter, tapStateAfter_flatten]
  · unfold dbLookup at hget ⊢
    rw [find_update_lookup (userID, secretName) _ db]
    cases hfind : List.find? (fun p => p.1 == (userID, secretName)) db with
    | none => rw [hfind] at hget; simp at hget
    | some p => simp

/-- Witness for claim C4: a one-record table, the payload read in two
chunks. -/
theorem claim_C4_witness :
    ∃ s' db' objs',
      uploadSecret ⟨fun _ _ _ _ _ _ => [], fun _ _ => []⟩ [9] [] ⟨none, none, none, none⟩
        [5] [6] [[1, 2], [3]] 77
        [(([117], [110]), ⟨[105], [110], [117], [], 0, 0, ⟨[], [], [], []⟩⟩)] []
        [117] [110]
        = (.ok s', db', objs', [.put]) ∧
      s'.info.checksum = natToDec (crc32c [1, 2, 3]) ∧
      dbLookup db' [117] [110] = some s' :=
  claim_C4 ⟨fun _ _ _ _ _ _ => [], fun _ _ => []⟩ [9] [] ⟨none, none, none, none⟩
    [5] [6] [[1, 2], [3]] 77
    [(([117], [110]), ⟨[105], [110], [117], [], 0, 0, ⟨[], [], [], []⟩⟩)] []
    [117] [110] [1, 2, 3] ⟨[105], [110], [117], [], 0, 0, ⟨[], [], [], []⟩⟩
    (by decide) rfl rfl

/-- Claim C2: for every upload on an existing metadata record, if the
blob write fails then the upload returns the wrapped storage error and
the metadata table is left exactly as it was: no content info and no
updatedAt change is persisted on that path, in the text service and in
the file service alike. -/
theorem claim_C2 :
    (∀ (env : CryptoEnv) (cryptoKey basePath : Bytes) (f : BlobFaults) (salt iv : Bytes)
      (chunks : List Bytes) (now : Nat) (db : TextDB) (objs : ObjStore)
      (userID secretName : Bytes) (secret : TextSecret) (e : BlobErr),
      dbLookup db userID secretName = some secret → f.putErr = some e →
      uploadSecret env cryptoKey basePath f salt iv chunks now db objs userID secretName
        = (.error (.storageErr .put e), db, objs, [.put])) ∧
    (∀ (env : CryptoEnv) (cryptoKey basePath : Bytes) (f : BlobFaults) (salt iv : Bytes)
      (chunks : List Bytes) (now : Nat) (fileName : Bytes) (db : FileDB) (objs : ObjStore)
      (userID secretName : Bytes) (secret : FileSecret) (e : BlobErr),
      fdbLookup db userID secretName = some secret → f.putErr = some e →
      uploadFile env cryptoKey basePath f salt iv chunks now fileName db objs userID secretName
        = (.error (.storageErr .put e), db, objs, [.put])) := by
  constructor
  · intro env cryptoKey basePath f salt iv chunks now db objs userID secretName secret e hget hput
    unfold uploadSecret
    rw [hget]
    dsimp only
    unfold putObject
    rw [hput]
  · intro env cryptoKey basePath f salt iv chunks now fileName db objs userID secretName secret e hget hput
    unfold uploadFile
    rw [hget]
    dsimp only
    unfold putObject
    rw [hput]

/-- Witness for claim C2: a one-record table and an injected write
fault, in both services. -/
theorem claim_C2_witness :
    uploadSecret ⟨fun _ _ _ _ _ _ => [], fun _ _ => []⟩ [9] [] ⟨some (.ioFault 3), none, none, none⟩
      [5] [6] [[1]] 77 [(([117], [110]), ⟨[105], [110], [117], [], 0, 0, ⟨[], [], [], []⟩⟩)] []
      [117] [110]
      = (.error (.storageErr .put (.ioFault 3)),
          [(([117], [110]), ⟨[105], [110], [117], [], 0, 0, ⟨[], [], [], []⟩⟩)], [], [.put]) ∧
    uploadFile ⟨fun _ _ _ _ _ _ => [], fun _ _ => []⟩ [9] [] ⟨some (.ioFault 3), none, none, none⟩
      [5] [6] [[1]] 77 [102] [(([117], [110]), ⟨[105], [110], [117], [], 0, 0, ⟨[], [], [], [], [], 0⟩⟩)] []
      [117] [110]
      = (.error (.storageErr .put (.ioFault 3)),
          [(([117], [110]), ⟨[105], [110], [117], [], 0, 0, ⟨[], [], [], [], [], 0⟩⟩)], [], [.put]) :=
  ⟨claim_C2.1 ⟨fun _ _ _ _ _ _ => [], fun _ _ => []⟩ [9] [] ⟨some (.ioFault 3), none, none, none⟩
      [5] [6] [[1]] 77 _ [] [117] [110] ⟨[105], [110], [117], [], 0, 0, ⟨[], [], [], []⟩⟩
      (.ioFault 3) (by decide) rfl,
    claim_C2.2 ⟨fun _ _ _ _ _ _ => [], fun _ _ => []⟩ [9] [] ⟨some (.ioFault 3), none, none, none⟩
      [5] [6] [[1]] 77 [102] _ [] [117] [110] ⟨[105], [110], [117], [], 0, 0, ⟨[], [], [], [], [], 0⟩⟩
      (.ioFault 3) (by decide) rfl⟩

/-- Claim C7: uploading to a secret whose metadata record does not exist
returns the entry-not-found sentinel with an empty blob-store call trace:
content can never precede its record, in the text service and in the file
service alike. -/
theorem claim_C7 :
    (∀ (env : CryptoEnv) (cryptoKey basePath : Bytes) (f : BlobFaults) (salt iv : Bytes)
      (chunks : List Bytes) (now : Nat) (db : TextDB) (objs : ObjStore)
      (userID secretName : Bytes),
      dbLookup db userID secretName = none →
      uploadSecret env cryptoKey basePath f salt iv chunks now db objs userID secretName
        = (.error .entryNotFound, db, objs, [])) ∧
    (∀ (env : CryptoEnv) (cryptoKey basePath : Bytes) (f : BlobFaults) (salt iv : Bytes)
      (chunks : List Bytes) (now : Nat) (fileName : Bytes) (db : FileDB) (objs : ObjStore)
      (userID secretName : Bytes),
      fdbLookup db userID secretName = none →
      uploadFile env cryptoKey basePath f salt iv chunks now fileName db objs userID secretName
        = (.error .entryNotFound, db, objs, [])) := by
  constructor
  · intro env cryptoKey basePath f salt iv chunks now db objs userID secretName hget
    unfold uploadSecret
    rw [hget]
  · intro env cryptoKey basePath f salt iv chunks now fileName db objs userID secretName hget
    unfold uploadFile
    rw [hget]

/-- Witness for claim C7: an empty metadata table in both services. -/
theorem claim_C7_witness :
    uploadSecret ⟨fun _ _ _ _ _ _ => [], fun _ _ => []⟩ [9] [] ⟨none, none, none, none⟩
      [5] [6] [[1]] 77 [] [([2], [3])] [117] [110]
      = (.error .entryNotFound, [], [([2], [3])], []) ∧
    uploadFile ⟨fun _ _ _ _ _ _ => [], fun _ _ => []⟩ [9] [] ⟨none, none, none, none⟩
      [5] [6] [[1]] 77 [102] [] [([2], [3])] [117] [110]
      = (.error .entryNotFound, [], [([2], [3])], []) :=
  ⟨claim_C7.1 ⟨fun _ _ _ _ _ _ => [], fun _ _ => []⟩ [9] [] ⟨none, none, none, none⟩
      [5] [6] [[1]] 77 [] [([2], [3])] [117] [110] rfl,
    claim_C7.2 ⟨fun _ _ _ _ _ _ => [], fun _ _ => []⟩ [9] [] ⟨none, none, none, none⟩
      [5] [6] [[1]] 77 [102] [] [([2], [3])] [117] [110] rfl⟩

/-- Counterexample to claim C3: a file secret in the MetadataOnly state
(record present, no blob ever uploaded, no injected faults). `DeleteFile`
stats the object, finds it absent, and returns the object-not-found
sentinel WITHOUT removing the metadata row — the claim says an absent
blob is treated as success and the row is still removed. -/
theorem claim_C3_counterexample :
    deleteFile [] ⟨none, none, none, none⟩
      [(([97], [115]), ⟨[105], [115], [97], [], 0, 0, ⟨[], [], [], [], [], 0⟩⟩)] [] [97] [115]
      = (.error .objectNotFound,
          [(([97], [115]), ⟨[105], [115], [97], [], 0, 0, ⟨[], [], [], [], [], 0⟩⟩)], [],
          [.getInfo]) := by
  rfl

/-- Claim C3 (amended): blob-removal failure preserves the metadata row
in both services; in the text service an absent blob is removed as a
success (spec contract of `RemoveObject`) and the row is deleted, so a
MetadataOnly text secret is deletable; but in the file service an absent
blob makes `DeleteFile` fail with the object-not-found sentinel and the
metadata row survives. -/
theorem claim_C3 :
    (∀ (basePath : Bytes) (f : BlobFaults) (db : TextDB) (objs : ObjStore)
      (userID secretName : Bytes) (secret : TextSecret) (e : BlobErr),
      dbLookup db userID secretName = some secret → f.removeErr = some e →
      deleteSecret basePath f db objs userID secretName
        = (.error (.storageErr .remove e), db, objs, [.remove])) ∧
    (∀ (basePath : Bytes) (f : BlobFaults) (db : TextDB) (objs : ObjStore)
      (userID secretName : Bytes) (secret : TextSecret),
      dbLookup db userID secretName = some secret → f.removeErr = none →
      deleteSecret basePath f db objs userID secretName
        = (.ok (), db.filter (fun p => p.1 != (userID, secretName)),
            objs.filter (fun p => p.1 != getObjName basePath userID secret.id), [.remove])) ∧
    (∀ (basePath : Bytes) (f : BlobFaults) (db : FileDB) (objs : ObjStore)
      (userID secretName : Bytes) (secret : FileSecret) (content : Bytes) (e : BlobErr),
      fdbLookup db userID secretName = some secret → f.getInfoErr = none →
      objLookup objs (getObjName basePath userID secret.id) = some content →
      f.removeErr = some e →
      deleteFile basePath f db objs userID secretName
        = (.error (.storageErr .remove e), db, objs, [.getInfo, .remove])) ∧
    (∀ (basePath : Bytes) (f : BlobFaults) (db : FileDB) (objs : ObjStore)
      (userID secretName : Bytes) (secret : FileSecret),
      fdbLookup db userID secretName = some secret → f.getInfoErr = none →
      objLookup objs (getObjName basePath userID secret.id) = none →
      deleteFile basePath f db objs userID secretName
        = (.error .objectNotFound, db, objs, [.getInfo])) := by
  refine ⟨?_, ?_, ?_, ?_⟩
  · intro basePath f db objs userID secretName secret e hget hrm
    unfold deleteSecret
    rw [hget]
    dsimp only
    unfold removeObject
    rw [hrm]
  · intro basePath f db objs userID secretName secret hget hrm
    unfold deleteSecret
    rw [hget]
    dsimp only
    unfold removeObject
    rw [hrm]
    dsimp only
    unfold dbRemove
    rw [hget]
  · intro basePath f db objs userID secretName secret content e hget hgi hobj hrm
    unfold deleteFile
    rw [hget]
    dsimp only
    unfold getObjectInfo
    rw [hgi]
    dsimp only
    rw [hobj]
    dsimp only
    unfold removeObject
    rw [hrm]
  · intro basePath f db objs userID secretName secret hget hgi hobj
    unfold deleteFile
    rw [hget]
    dsimp only
    unfold getObjectInfo
    rw [hgi]
    dsimp only
    rw [hobj]

/-- Witness for the amended claim C3: concrete one-record tables, with a
removal fault, with no fault, with a present blob plus removal fault, and
with an absent blob. -/
theorem claim_C3_witness :
    deleteSecret [] ⟨none, none, none, some (.ioFault 9)⟩
      [(([117], [110]), ⟨[105], [110], [117], [], 0, 0, ⟨[], [], [], []⟩⟩)] [] [117] [110]
      = (.error (.storageErr .remove (.ioFault 9)),
          [(([117], [110]), ⟨[105], [110], [117], [], 0, 0, ⟨[], [], [], []⟩⟩)], [], [.remove]) ∧
    deleteSecret [] ⟨none, none, none, none⟩
      [(([117], [110]), ⟨[105], [110], [117], [], 0, 0, ⟨[], [], [], []⟩⟩)] [] [117] [110]
      = (.ok (),
          ([(([117], [110]), ⟨[105], [110], [117], [], 0, 0, ⟨[], [], [], []⟩⟩)] : TextDB).filter
            (fun p => p.1 != ([117], [110])),
          ([] : ObjStore).filter (fun p => p.1 != getObjName [] [117] [105]), [.remove]) ∧
    deleteFile [] ⟨none, none, none, some (.ioFault 9)⟩
      [(([117], [110]), ⟨[105], [110], [117], [], 0, 0, ⟨[], [], [], [], [], 0⟩⟩)]
      [(getObjName [] [117] [105], [42])] [117] [110]
      = (.error (.storageErr .remove (.ioFault 9)),
          [(([117], [110]), ⟨[105], [110], [117], [], 0, 0, ⟨[], [], [], [], [], 0⟩⟩)],
          [(getObjName [] [117] [105], [42])], [.getInfo, .remove]) ∧
    deleteFile [] ⟨none, none, none, none⟩
      [(([117], [110]), ⟨[105], [110], [117], [], 0, 0, ⟨[], [], [], [], [], 0⟩⟩)] [] [117] [110]
      = (.error .objectNotFound,
          [(([117], [110]), ⟨[105], [110], [117], [], 0, 0, ⟨[], [], [], [], [], 0⟩⟩)], [],
          [.getInfo]) :=
  ⟨claim_C3.1 [] ⟨none, none, none, some (.ioFault 9)⟩ _ [] [117] [110]
      ⟨[105], [110], [117], [], 0, 0, ⟨[], [], [], []⟩⟩ (.ioFault 9) (by decide) rfl,
    claim_C3.2.1 [] ⟨none, none, none, none⟩ _ [] [117] [110]
      ⟨[105], [110], [117], [], 0, 0, ⟨[], [], [], []⟩⟩ (by decide) rfl,
    claim_C3.2.2.1 [] ⟨none, none, none, some (.ioFault 9)⟩ _ _ [117] [110]
      ⟨[105], [110], [117], [], 0, 0, ⟨[], [], [], [], [], 0⟩⟩ [42] (.ioFault 9)
      (by decide) rfl (by decide) rfl,
    claim_C3.2.2.2 [] ⟨none, none, none, none⟩ _ [] [117] [110]
      ⟨[105], [110], [117], [], 0, 0, ⟨[], [], [], [], [], 0⟩⟩ (by decide) rfl rfl⟩

/-- Claim C5: downloading a secret whose record exists but whose content
was never uploaded fails with a content-absence error that is distinct
from the entry-not-found error returned for an absent record. The text
service returns its object-not-found sentinel (after the stat); the file
service surfaces the wrapped object-not-exist storage error from
`GetObject`; both are distinct from the record-not-found sentinel, which
both services return exactly when the record itself is absent. -/
theorem claim_C5 :
    (∀ (env : CryptoEnv) (cryptoKey basePath : Bytes) (db : TextDB) (objs : ObjStore)
      (userID secretName : Bytes) (secret : TextSecret),
      dbLookup db userID secretName = some secret →
      objLookup objs (getObjName basePath userID secret.id) = none →
      downloadSecret env cryptoKey basePath ⟨none, none, none, none⟩ db objs userID secretName
        = (.error .objectNotFound, [.getInfo]) ∧
      isContentAbsentErr .objectNotFound = true ∧ SvcErr.objectNotFound ≠ .entryNotFound) ∧
    (∀ (env : CryptoEnv) (cryptoKey basePath : Bytes) (db : TextDB) (objs : ObjStore)
      (userID secretName : Bytes),
      dbLookup db userID secretName = none →
      downloadSecret env cryptoKey basePath ⟨none, none, none, none⟩ db objs userID secretName
        = (.error .entryNotFound, [])) ∧
    (∀ (env : CryptoEnv) (cryptoKey basePath : Bytes) (db : FileDB) (objs : ObjStore)
      (userID secretName : Bytes) (secret : FileSecret),
      fdbLookup db userID secretName = some secret →
      objLookup objs (getObjName basePath userID secret.id) = none →
      downloadFile env cryptoKey basePath ⟨none, none, none, none⟩ db objs userID secretName
        = (.error (.storageErr .get .objNotExist), [.get]) ∧
      isContentAbsentErr (.storageErr .get .objNotExist) = true ∧
      SvcErr.storageErr .get .objNotExist ≠ .entryNotFound) ∧
    (∀ (env : CryptoEnv) (cryptoKey basePath : Bytes) (db : FileDB) (objs : ObjStore)
      (userID secretName : Bytes),
      fdbLookup db userID secretName = none →
      downloadFile env cryptoKey basePath ⟨none, none, none, none⟩ db objs userID secretName
        = (.error .entryNotFound, [])) := by
  refine ⟨?_, ?_, ?_, ?_⟩
  · intro env cryptoKey basePath db objs userID secretName secret hget hobj
    refine ⟨?_, rfl, by simp⟩
    unfold downloadSecret
    rw [hget]
    dsimp only
    unfold getObjectInfo
    dsimp only
    rw [hobj]
  · intro env cryptoKey basePath db objs userID secretName hget
    unfold downloadSecret
    rw [hget]
  · intro env cryptoKey basePath db objs userID secretName secret hget hobj
    refine ⟨?_, rfl, by simp⟩
    unfold downloadFile
    rw [hget]
    dsimp only
    unfold getObject
    dsimp only
    rw [hobj]
  · intro env cryptoKey basePath db objs userID secretName hget
    unfold downloadFile
    rw [hget]

/-- Witness for claim C5: concrete MetadataOnly records and an absent
record, in both services. -/
theorem claim_C5_witness :
    (downloadSecret ⟨fun _ _ _ _ _ _ => [], fun _ _ => []⟩ [9] [] ⟨none, none, none, none⟩
      [(([117], [110]), ⟨[105], [110], [117], [], 0, 0, ⟨[], [], [], []⟩⟩)] [] [117] [110]
      = (.error .objectNotFound, [.getInfo]) ∧
      isContentAbsentErr .objectNotFound = true ∧ SvcErr.objectNotFound ≠ .entryNotFound) ∧
    downloadSecret ⟨fun _ _ _ _ _ _ => [], fun _ _ => []⟩ [9] [] ⟨none, none, none, none⟩
      [] [] [117] [110] = (.error .entryNotFound, []) ∧
    (downloadFile ⟨fun _ _ _ _ _ _ => [], fun _ _ => []⟩ [9] [] ⟨none, none, none, none⟩
      [(([117], [110]), ⟨[105], [110], [117], [], 0, 0, ⟨[], [], [], [], [], 0⟩⟩)] [] [117] [110]
      = (.error (.storageErr .get .objNotExist), [.get]) ∧
      isContentAbsentErr (.storageErr .get .objNotExist) = true ∧
      SvcErr.storageErr .get .objNotExist ≠ .entryNotFound) ∧
    downloadFile ⟨fun _ _ _ _ _ _ => [], fun _ _ => []⟩ [9] [] ⟨none, none, none, none⟩
      [] [] [117] [110] = (.error .entryNotFound, []) :=
  ⟨claim_C5.1 ⟨fun _ _ _ _ _ _ => [], fun _ _ => []⟩ [9] [] _ [] [117] [110]
      ⟨[105], [110], [117], [], 0, 0, ⟨[], [], [], []⟩⟩ (by decide) rfl,
    claim_C5.2.1 ⟨fun _ _ _ _ _ _ => [], fun _ _ => []⟩ [9] [] [] [] [117] [110] rfl,
    claim_C5.2.2.1 ⟨fun _ _ _ _ _ _ => [], fun _ _ => []⟩ [9] [] _ [] [117] [110]
      ⟨[105], [110], [117], [], 0, 0, ⟨[], [], [], [], [], 0⟩⟩ (by decide) rfl,
    claim_C5.2.2.2 ⟨fun _ _ _ _ _ _ => [], fun _ _ => []⟩ [9] [] [] [] [117] [110] rfl⟩

/-- Claim C6: the retry wrapper makes at most 3 attempts with linearly
increasing backoff of 1s, 3s, 5s on transient errors (connection refused
or a connection-exception class database error); every other error is
returned immediately after its first occurrence, unretried; and an
operation failing twice with connection-refused then succeeding returns
success with no error. -/
theorem claim_C6 :
    (∀ (op : Nat → Option DBErr) (e0 e1 e2 : DBErr),
      op 0 = some e0 → op 1 = some e1 → op 2 = some e2 →
      isRetryable e0 = true → isRetryable e1 = true → isRetryable e2 = true →
      withRetry op = .exhausted e2 3 [1, 3, 5]) ∧
    (∀ (op : Nat → Option DBErr) (e : DBErr),
      op 0 = some e → isRetryable e = false →
      withRetry op = .failedFast e 1 []) ∧
    (∀ (op : Nat → Option DBErr),
      op 0 = some .connRefused → op 1 = some .connRefused → op 2 = none →
      withRetry op = .ok 3 [1, 3]) ∧
    isRetryable .connRefused = true ∧
    (∀ (code : String), isConnExceptionCode code = true → isRetryable (.pg code) = true) ∧
    (∀ (t : Nat), isRetryable (.other t) = false) := by
  refine ⟨?_, ?_, ?_, rfl, ?_, fun _ => rfl⟩
  · intro op e0 e1 e2 h0 h1 h2 r0 r1 r2
    simp [withRetry, withRetryAux, h0, h1, h2, r0, r1, r2, retryWaitSeconds]
  · intro op e h0 r0
    simp [withRetry, withRetryAux, h0, r0]
  · intro op h0 h1 h2
    simp [withRetry, withRetryAux, h0, h1, h2, retryWaitSeconds, isRetryable]
  · intro code h
    simp [isRetryable, h]

/-- Witness for claim C6: concrete attempt sequences for each conjunct. -/
theorem claim_C6_witness :
    withRetry (fun _ => some (.pg "08006")) = .exhausted (.pg "08006") 3 [1, 3, 5] ∧
    withRetry (fun _ => some (.other 23)) = .failedFast (.other 23) 1 [] ∧
    withRetry (fun i => if i < 2 then some .connRefused else none) = .ok 3 [1, 3] ∧
    isRetryable (.pg "08003") = true :=
  ⟨claim_C6.1 (fun _ => some (.pg "08006")) (.pg "08006") (.pg "08006") (.pg "08006")
      rfl rfl rfl (by decide) (by decide) (by decide),
    claim_C6.2.1 (fun _ => some (.other 23)) (.other 23) rfl rfl,
    claim_C6.2.2.1 (fun i => if i < 2 then some .connRefused else none) rfl rfl rfl,
    claim_C6.2.2.2.2.1 "08003" (by decide)⟩

/-- Decoding a base64url alphabet character recovers its six-bit index. -/
theorem b64i_b64c : ∀ n < 64, b64i (b64c n) = some n := by decide

/-- No alphabet character is the padding character. -/
theorem b64c_ne_pad : ∀ n < 64, b64c n ≠ 61 := by decide

/-- Base64url decoding inverts encoding on byte strings. -/
theorem b64_roundtrip : ∀ (bs : Bytes), (∀ x ∈ bs, x < 256) →
    b64Decode (b64Encode bs) = some bs := by
  intro bs
  induction bs using b64Encode.induct with
  | case1 => intro _; rfl
  | case2 a =>
      intro h
      have ha : a < 256 := h a (by simp)
      simp [b64Encode, b64Decode, b64i_b64c (a / 4) (by omega),
        b64i_b64c (a % 4 * 16) (by omega)]
      omega
  | case3 a b =>
      intro h
      have ha : a < 256 := h a (by simp)
      have hb : b < 256 := h b (by simp)
      have hne : b64c (b % 16 * 4) ≠ 61 := b64c_ne_pad _ (by omega)
      simp [b64Encode, b64Decode, b64i_b64c (a / 4) (by omega),
        b64i_b64c (a % 4 * 16 + b / 16) (by omega), b64i_b64c (b % 16 * 4) (by omega),
        hne]
      omega
  | case4 a b c rest ih =>
      intro h
      have ha : a < 256 := h a (by simp)
      have hb : b < 256 := h b (by simp)
      have hc : c < 256 := h c (by simp)
      have hrest : ∀ x ∈ rest, x < 256 := by
        intro x hx; exact h x (by simp [hx])
      have hne2 : b64c (b % 16 * 4 + c / 64) ≠ 61 := b64c_ne_pad _ (by omega)
      have hne3 : b64c (c % 64) ≠ 61 := b64c_ne_pad _ (by omega)
      have e1 : a / 4 * 4 + (a % 4 * 16 + b / 16) / 16 = a := by omega
      have e2 : (a % 4 * 16 + b / 16) % 16 * 16 + (b % 16 * 4 + c / 64) / 4 = b := by omega
      have e3 : (b % 16 * 4 + c / 64) % 4 * 64 + c % 64 = c := by omega
      simp [b64Encode, b64Decode, b64i_b64c (a / 4) (by omega),
        b64i_b64c (a % 4 * 16 + b / 16) (by omega),
        b64i_b64c (b % 16 * 4 + c / 64) (by omega), b64i_b64c (c % 64) (by omega),
        hne2, hne3, ih hrest, e1, e2, e3]

/-- CFB encryption of the empty stream is empty for any block count. -/
theorem cfbEncBlocks_nil (aes : Bytes → Bytes) : ∀ (n : Nat) (prev : Bytes),
    cfbEncBlocks aes n prev [] = [] := by
  intro n
  induction n with
  | zero => intro prev; rfl
  | succ n ih => intro prev; simp [cfbEncBlocks, xorBytes, ih]

/-- CFB encryption preserves the stream length when the block count
covers the stream. -/
theorem cfbEncBlocks_length (aes : Bytes → Bytes) (hlen : ∀ b, (aes b).length = 16) :
    ∀ (n : Nat) (prev pt : Bytes), pt.length ≤ 16 * n →
      (cfbEncBlocks aes n prev pt).length = pt.length := by
  intro n
  induction n with
  | zero =>
      intro prev pt h
      have : pt = [] := List.length_eq_zero.mp (by omega)
      simp [this, cfbEncBlocks]
  | succ n ih =>
      intro prev pt h
      have hd : (pt.drop 16).length = pt.length - 16 := by simp
      simp only [cfbEncBlocks, List.length_append, xorBytes, List.length_zipWith,
        List.length_take, hlen, ih _ (pt.drop 16) (by omega)]
      omega

/-- CFB decryption of the empty stream is empty for any block count. -/
theorem cfbDecBlocks_nil (aes : Bytes → Bytes) : ∀ (n : Nat) (prev : Bytes),
    cfbDecBlocks aes n prev [] = [] := by
  intro n
  induction n with
  | zero => intro prev; rfl
  | succ n ih => intro prev; simp [cfbDecBlocks, xorBytes, ih]

/-- CFB decryption inverts CFB encryption block by block. -/
theorem cfb_roundtrip (aes : Bytes → Bytes) (hlen : ∀ b, (aes b).length = 16) :
    ∀ (n : Nat) (prev pt : Bytes), pt.length ≤ 16 * n →
      cfbDecBlocks aes n prev (cfbEncBlocks aes n prev pt) = pt := by
  intro n
  induction n with
  | zero =>
      intro prev pt h
      have : pt = [] := List.length_eq_zero.mp (by omega)
      simp [this, cfbEncBlocks, cfbDecBlocks]
  | succ n ih =>
      intro prev pt h
      have hks : (aes prev).length = 16 := hlen prev
      by_cases hpt : pt.length ≤ 16
      · have hdrop : pt.drop 16 = [] := List.drop_eq_nil_of_le (by omega)
        have htake : pt.take 16 = pt := List.take_of_length_le (by omega)
        have hclen : (xorBytes pt (aes prev)).length ≤ 16 := by
          simp [xorBytes]; omega
        simp only [cfbEncBlocks, cfbDecBlocks, hdrop, htake, cfbEncBlocks_nil,
          List.append_nil]
        rw [List.take_of_length_le hclen, List.drop_eq_nil_of_le hclen,
          xorBytes_cancel pt (aes prev) (by omega), cfbDecBlocks_nil, List.append_nil]
      · have hc16 : (xorBytes (pt.take 16) (aes prev)).length = 16 := by
          simp [xorBytes]; omega
        have h1 : ∀ (tl : Bytes), (xorBytes (pt.take 16) (aes prev) ++ tl).take 16
            = xorBytes (pt.take 16) (aes prev) := by
          intro tl; exact List.take_left' hc16
        have h2 : ∀ (tl : Bytes), (xorBytes (pt.take 16) (aes prev) ++ tl).drop 16 = tl := by
          intro tl; exact List.drop_left' hc16
        have hcancel : xorBytes (xorBytes (pt.take 16) (aes prev)) (aes prev) = pt.take 16 :=
          xorBytes_cancel _ (aes prev) (by simp [xorBytes]; omega)
        have hrec : (pt.drop 16).length ≤ 16 * n := by simp; omega
        simp only [cfbEncBlocks, cfbDecBlocks]
        rw [h1, h2, hcancel, ih _ (pt.drop 16) hrec, List.take_append_drop]

/-- XOR of byte strings stays within byte range. -/
theorem xorBytes_bound : ∀ (a b : Bytes), (∀ x ∈ a, x < 256) → (∀ x ∈ b, x < 256) →
    ∀ x ∈ xorBytes a b, x < 256 := by
  intro a
  induction a with
  | nil => intro b _ _ x hx; simp [xorBytes] at hx
  | cons h t ih =>
      intro b ha hb x hx
      cases b with
      | nil => simp [xorBytes] at hx
      | cons bh bt =>
          simp only [xorBytes, List.zipWith_cons_cons, List.mem_cons] at hx
          rcases hx with hx | hx
          · subst hx
            have h1 : h < 2 ^ 8 := by have := ha h (by simp); norm_num; omega
            have h2 : bh < 2 ^ 8 := by have := hb bh (by simp); norm_num; omega
            have h3 := Nat.xor_lt_two_pow h1 h2
            have e : (2 : Nat) ^ 8 = 256 := by norm_num
            omega
          · exact ih bt (fun y hy => ha y (by simp [hy])) (fun y hy => hb y (by simp [hy])) x hx

/-- CFB ciphertext stays within byte range. -/
theorem cfbEncBlocks_bound (aes : Bytes → Bytes) (haes : ∀ b, ∀ x ∈ aes b, x < 256) :
    ∀ (n : Nat) (prev pt : Bytes), (∀ x ∈ pt, x < 256) →
      ∀ x ∈ cfbEncBlocks aes n prev pt, x < 256 := by
  intro n
  induction n with
  | zero => intro prev pt _ x hx; simp [cfbEncBlocks] at hx
  | succ n ih =>
      intro prev pt hpt x hx
      simp only [cfbEncBlocks, List.mem_append] at hx
      rcases hx with hx | hx
      · exact xorBytes_bound _ _ (fun y hy => hpt y (List.take_subset 16 pt hy)) (haes prev) x hx
      · exact ih _ _ (fun y hy => hpt y (List.drop_subset 16 pt hy)) x hx

/-- Claim C8: for every 16, 24 or 32 byte key and every string, decrypting
the output of `EncryptString` with the same key returns exactly the
original string: the base64url decode inverts the encode, the prepended
16-byte IV is split off, and CFB decryption with the same key and IV
inverts CFB encryption. Holds for every block cipher producing 16-byte
blocks of bytes. -/
theorem claim_C8 (aesE : Bytes → Bytes → Bytes)
    (haes : ∀ k b, (aesE k b).length = 16 ∧ ∀ x ∈ aesE k b, x < 256)
    (key iv pt : Bytes) (hkey : aesKeyLenOk key) (hiv : iv.length = 16)
    (hivb : ∀ x ∈ iv, x < 256) (hpt : ∀ x ∈ pt, x < 256) :
    (EncryptString aesE key iv pt).bind (DecryptString aesE key) = some pt := by
  have hlen : ∀ b, (aesE key b).length = 16 := fun b => (haes key b).1
  have hbnd : ∀ b, ∀ x ∈ aesE key b, x < 256 := fun b => (haes key b).2
  have hctb : ∀ x ∈ cfbEncBlocks (aesE key) ((pt.length + 15) / 16) iv pt, x < 256 :=
    cfbEncBlocks_bound (aesE key) hbnd _ iv pt hpt
  have hall : ∀ x ∈ iv ++ cfbEncBlocks (aesE key) ((pt.length + 15) / 16) iv pt, x < 256 := by
    intro x hx
    rcases List.mem_append.mp hx with hx | hx
    exacts [hivb x hx, hctb x hx]
  have hctlen : (cfbEncBlocks (aesE key) ((pt.length + 15) / 16) iv pt).length = pt.length :=
    cfbEncBlocks_length (aesE key) hlen _ iv pt (by omega)
  unfold EncryptString
  rw [if_pos hkey]
  rw [Option.some_bind]
  unfold DecryptString
  rw [b64_roundtrip _ hall]
  dsimp only
  rw [if_neg (by simp [hiv, hctlen])]
  rw [if_pos hkey]
  rw [List.take_left' hiv, List.drop_left' hiv, hctlen]
  rw [cfb_roundtrip (aesE key) hlen _ iv pt (by omega)]

/-- Witness for claim C8 at a concrete key, IV and plaintext. -/
theorem claim_C8_witness :
    (EncryptString (fun _ _ => List.replicate 16 0) (List.replicate 16 0) (List.replicate 16 0)
      [104, 105]).bind (DecryptString (fun _ _ => List.replicate 16 0) (List.replicate 16 0))
      = some [104, 105] :=
  claim_C8 (fun _ _ => List.replicate 16 0)
    (fun _ _ => ⟨List.length_replicate 16 0,
      fun x hx => by simp [List.mem_replicate] at hx; omega⟩)
    (List.replicate 16 0) (List.replicate 16 0) [104, 105]
    (Or.inl (List.length_replicate 16 0)) (List.length_replicate 16 0)
    (fun x hx => by simp [List.mem_replicate] at hx; omega)
    (by decide)

/-- Counterexample to claim C9: `CreateData` with the card number
`4242424242424241` (ASCII codes) succeeds although the number fails the
Luhn checksum — the cited `CreateData` performs no card-number checksum
validation, only an emptiness check. The holder is `JOHN`, the CVV `123`
and the expiry `2024-01-02T15:04:05Z`, all valid. -/
theorem claim_C9_counterexample :
    (CreateData [52, 50, 52, 50, 52, 50, 52, 50, 52, 50, 52, 50, 52, 50, 52, 49]
      [74, 79, 72, 78] [49, 50, 51]
      [50, 48, 50, 52, 45, 48, 49, 45, 48, 50, 84, 49, 53, 58, 48, 52, 58, 48, 53, 90]).isOk
      = true ∧
    validateCardNumber [52, 50, 52, 50, 52, 50, 52, 50, 52, 50, 52, 50, 52, 50, 52, 49]
      = false := by
  decide

/-- A valid CVV is nonempty (its length is 3). -/
theorem validateCardCvv_ne_nil (cvv : Bytes) (h : validateCardCvv cvv = true) : cvv ≠ [] := by
  intro he
  subst he
  simp [validateCardCvv] at h

/-- A valid expiry string is nonempty. -/
theorem validateCardExpireAt_ne_nil (e : Bytes) (h : validateCardExpireAt e = true) : e ≠ [] := by
  intro he
  subst he
  simp [validateCardExpireAt, rfc3339Ok] at h

/-- Claim C9 (amended): `CreateData` validates synchronously and
completely, but the checks are: nonempty card number (no checksum
validation), nonempty holder name, CVV of length exactly 3 accepted by
`strconv.Atoi` (so a signed string such as `-12` passes although it is
not three numeric digits), and an RFC3339-parseable expiry. On any
validation error no data record is returned. -/
theorem claim_C9 (number name cvv expireAt : Bytes) :
    (CreateData number name cvv expireAt).isOk = true ↔
      (number ≠ [] ∧ name ≠ [] ∧ validateCardCvv cvv = true ∧
        validateCardExpireAt expireAt = true) := by
  unfold CreateData NewData
  by_cases h1 : number = [] <;> by_cases h2 : name = [] <;>
    by_cases h3 : validateCardCvv cvv <;> by_cases h4 : validateCardExpireAt expireAt <;>
    simp [h1, h2, h3, h4, Except.isOk, Except.toBool, validateCardCvv_ne_nil,
      validateCardExpireAt_ne_nil]

/-- Counterexample to claim C10: a secret is added to the in-memory
repository; afterwards the caller mutates the very record it passed (an
`AddMetadata` write through the shared metadata map reference), with no
repository call, and the repository's observed stored state changes:
the struct copy is shallow, so the metadata map is shared. -/
theorem claim_C10_counterexample :
    (memAddSecret [] ⟨[105], [110], [117], 0, 0, 0, 0⟩).2
        = [(([117], [110]), ⟨[105], [110], [117], 0, 0, 0, 0⟩)] ∧
    storedObservation ⟨[[]], [⟨[], [], [], [], [], 0⟩]⟩
        [(([117], [110]), ⟨[105], [110], [117], 0, 0, 0, 0⟩)] [117] [110]
      ≠ storedObservation
          (callerAddMetadata ⟨[[]], [⟨[], [], [], [], [], 0⟩]⟩
            ⟨[105], [110], [117], 0, 0, 0, 0⟩ [107] [118])
          [(([117], [110]), ⟨[105], [110], [117], 0, 0, 0, 0⟩)] [117] [110] := by
  decide

/-- Reading the written cell back. -/
theorem listSet_getD_eq {α : Type} (d : α) : ∀ (xs : List α) (i : Nat) (v : α),
    i < xs.length → (listSet xs i v).getD i d = v := by
  intro xs
  induction xs with
  | nil => intro i v h; simp at h
  | cons x t ih =>
      intro i v h
      cases i with
      | zero => rfl
      | succ i => exact ih i v (by simpa using h)

/-- Reading any other cell is unaffected by the write. -/
theorem listSet_getD_ne {α : Type} (d : α) : ∀ (xs : List α) (i j : Nat) (v : α),
    j ≠ i → (listSet xs i v).getD j d = xs.getD j d := by
  intro xs
  induction xs with
  | nil => intro i j v _; cases i <;> rfl
  | cons x t ih =>
      intro i j v h
      cases i with
      | zero => cases j with
          | zero => exact absurd rfl h
          | succ j => rfl
      | succ i =>
          cases j with
          | zero => rfl
          | succ j => exact ih i j v (fun he => h (by rw [he]))

/-- Claim C10 (amended): the in-memory repository stores shallow struct
copies. The struct component of the stored state is never changed by a
caller-side metadata write (first conjunct), and such a write touches
nothing but the one metadata cell it addresses (third conjunct); but the
metadata map is shared by reference, so a caller write through a record
whose reference coincides with the stored one IS visible in the
repository's observed stored state (second conjunct) — stored structs
change only through repository calls, stored metadata content does not. -/
theorem claim_C10 :
    (∀ (h : MemHeap) (repo : MemRepo) (s : MemSecret) (k v userID name : Bytes),
      (storedObservation (callerAddMetadata h s k v) repo userID name).map (·.1)
        = (storedObservation h repo userID name).map (·.1)) ∧
    (∀ (h : MemHeap) (repo : MemRepo) (s t : MemSecret) (k v userID name : Bytes),
      (repo.find? (fun p => p.1 == (userID, name))).map (·.2) = some t →
      t.metaRef = s.metaRef → s.metaRef < h.metas.length →
      storedObservation (callerAddMetadata h s k v) repo userID name
        = some (t, (k, v) :: (h.metas.getD s.metaRef []).filter (fun p => p.1 != k),
            h.infos.getD t.infoRef ⟨[], [], [], [], [], 0⟩)) ∧
    (∀ (h : MemHeap) (s : MemSecret) (k v : Bytes),
      (callerAddMetadata h s k v).infos = h.infos ∧
      ∀ (j : Nat), j ≠ s.metaRef →
        (callerAddMetadata h s k v).metas.getD j [] = h.metas.getD j []) := by
  refine ⟨?_, ?_, ?_⟩
  · intro h repo s k v userID name
    unfold storedObservation
    cases hf : (repo.find? (fun p => p.1 == (userID, name))).map (·.2) with
    | none => rfl
    | some t => rfl
  · intro h repo s t k v userID name hf href hlt
    unfold storedObservation
    rw [hf]
    unfold callerAddMetadata
    dsimp only
    rw [href, listSet_getD_eq [] h.metas s.metaRef _ hlt]
  · intro h s k v
    refine ⟨rfl, ?_⟩
    intro j hj
    unfold callerAddMetadata
    dsimp only
    exact listSet_getD_ne [] h.metas s.metaRef j _ hj

/-- Witness for the amended claim C10 at a concrete heap and table. -/
theorem claim_C10_witness :
    (storedObservation
        (callerAddMetadata ⟨[[]], [⟨[], [], [], [], [], 0⟩]⟩
          ⟨[105], [110], [117], 0, 0, 0, 0⟩ [107] [118])
        [(([117], [110]), ⟨[105], [110], [117], 0, 0, 0, 0⟩)] [117] [110]).map (·.1)
      = (storedObservation ⟨[[]], [⟨[], [], [], [], [], 0⟩]⟩
          [(([117], [110]), ⟨[105], [110], [117], 0, 0, 0, 0⟩)] [117] [110]).map (·.1) ∧
    storedObservation
        (callerAddMetadata ⟨[[]], [⟨[], [], [], [], [], 0⟩]⟩
          ⟨[105], [110], [117], 0, 0, 0, 0⟩ [107] [118])
        [(([117], [110]), ⟨[105], [110], [117], 0, 0, 0, 0⟩)] [117] [110]
      = some (⟨[105], [110], [117], 0, 0, 0, 0⟩,
          [([107], [118])], ⟨[], [], [], [], [], 0⟩) ∧
    (callerAddMetadata ⟨[[]], [⟨[], [], [], [], [], 0⟩]⟩
        ⟨[105], [110], [117], 0, 0, 0, 0⟩ [107] [118]).infos
      = [⟨[], [], [], [], [], 0⟩] :=
  ⟨claim_C10.1 ⟨[[]], [⟨[], [], [], [], [], 0⟩]⟩
      [(([117], [110]), ⟨[105], [110], [117], 0, 0, 0, 0⟩)]
      ⟨[105], [110], [117], 0, 0, 0, 0⟩ [107] [118] [117] [110],
    by
      have := claim_C10.2.1 ⟨[[]], [⟨[], [], [], [], [], 0⟩]⟩
        [(([117], [110]), ⟨[105], [110], [117], 0, 0, 0, 0⟩)]
        ⟨[105], [110], [117], 0, 0, 0, 0⟩ ⟨[105], [110], [117], 0, 0, 0, 0⟩
        [107] [118] [117] [110] (by decide) rfl (by decide)
      simpa using this,
    (claim_C10.2.2 ⟨[[]], [⟨[], [], [], [], [], 0⟩]⟩
      ⟨[105], [110], [117], 0, 0, 0, 0⟩ [107] [118]).1⟩

end Gophkeeper
